import Mathlib

/-!
Shallow embedding of the settlement core of the legal marketplace backend
(`internal/quotes/handlers.go`, `internal/payments/handlers.go`,
`internal/cases/handlers.go`, `pkg/models/models.go`, `pkg/utils/helper.go`).

The relational store is modelled as lists of records; `SELECT ... FOR UPDATE`
transactions become sequential Lean functions over the whole store, and a
rolled-back transaction is an `Except.error` that leaves the store as it was.
UUIDs and timestamps are modelled as `Nat`; gorm's `gen_random_uuid()` becomes
a fresh-id counter.  The optional `accepted_quote_id` / `accepted_lawyer_id` /
`engaged_at` columns (zero-valued UUID / NULL when unset in Go) are modelled
as `Option Nat`.  HTTP parsing, bearer-token auth resolution and payload
validation happen before the embedded logic in the Go handlers; the embedded
functions start from the already-resolved `(actorId, ids, payload)` values,
exactly at the point where the handlers touch the store.
-/

namespace LegalMP

/-- Source `models.CaseStatus`: open / engaged / closed / cancelled. -/
inductive CaseStatus where
  | open_
  | engaged
  | closed
  | cancelled
  deriving DecidableEq, Repr

/-- Source `models.QuoteStatus`: proposed / accepted / rejected. -/
inductive QuoteStatus where
  | proposed
  | accepted
  | rejected
  deriving DecidableEq, Repr

/-- Source `models.PayStatus`: initiated / paid / failed. -/
inductive PayStatus where
  | initiated
  | paid
  | failed
  deriving DecidableEq, Repr

/-- The fiber error outcomes the handlers surface (`fiber.ErrNotFound`,
`fiber.ErrForbidden`, `fiber.NewError(fiber.StatusConflict, msg)`,
`fiber.ErrInternalServerError`). -/
inductive Err where
  | notFound
  | forbidden
  | conflict (msg : String)
  | internal
  deriving DecidableEq, Repr

/-- Source `models.Case` (resource): the fields the settlement core reads/writes. -/
structure Case where
  id : Nat
  clientID : Nat
  status : CaseStatus
  engagedAt : Option Nat
  acceptedQuoteID : Option Nat
  acceptedLawyerID : Option Nat
  deriving DecidableEq, Repr

/-- Source `models.Quote` (offer). -/
structure Quote where
  id : Nat
  caseID : Nat
  lawyerID : Nat
  amountCents : Int
  days : Int
  note : String
  status : QuoteStatus
  createdAt : Nat
  updatedAt : Nat
  deriving DecidableEq, Repr

/-- Source `models.Payment` (settlement record). -/
structure Payment where
  id : Nat
  caseID : Nat
  quoteID : Nat
  clientID : Nat
  stripePaymentIntent : Option String
  amountCents : Int
  status : PayStatus
  createdAt : Nat
  deriving DecidableEq, Repr

/-- Source `models.CaseHistory` (audit entry). -/
structure CaseHistory where
  caseID : Nat
  actorID : Nat
  action : String
  oldStatus : CaseStatus
  newStatus : CaseStatus
  reason : String
  deriving DecidableEq, Repr

/-- The whole relational store (tables `cases`, `quotes`, `payments`,
`case_histories`), plus the fresh-id source standing in for
`gen_random_uuid()`. -/
structure DB where
  cases : List Case
  quotes : List Quote
  payments : List Payment
  histories : List CaseHistory
  nextID : Nat
  deriving DecidableEq, Repr

/-- Lookup `SELECT * FROM cases WHERE id = ?` (gorm `First(&cs, "id = ?", id)`). -/
def findCase (db : DB) (cid : Nat) : Option Case :=
  db.cases.find? (fun cs => cs.id == cid)

/-- Lookup `SELECT * FROM quotes WHERE id = ?`. -/
def findQuoteByID (db : DB) (qid : Nat) : Option Quote :=
  db.quotes.find? (fun q => q.id == qid)

/-- Lookup `SELECT * FROM quotes WHERE case_id = ? AND lawyer_id = ?`. -/
def findPairQuote (db : DB) (caseID lawyerID : Nat) : Option Quote :=
  db.quotes.find? (fun q => q.caseID == caseID && q.lawyerID == lawyerID)

/-- Lookup `SELECT * FROM payments WHERE id = ?`. -/
def findPayment (db : DB) (pid : Nat) : Option Payment :=
  db.payments.find? (fun p => p.id == pid)

/-- Lookup `SELECT * FROM payments WHERE quote_id = ?`. -/
def findPaymentByQuote (db : DB) (qid : Nat) : Option Payment :=
  db.payments.find? (fun p => p.quoteID == qid)

/-- All stored quotes for one (resource, bidder) pair. -/
def pairQuotes (db : DB) (caseID lawyerID : Nat) : List Quote :=
  db.quotes.filter (fun q => q.caseID == caseID && q.lawyerID == lawyerID)

/-- The store an operation leaves behind: the new store on success, the
unchanged store on error (the Go handlers `tx.Rollback()` on every error
path before surfacing it). -/
def dbAfter {α : Type} (db : DB) (r : Except Err (DB × α)) : DB :=
  match r with
  | .ok (db', _) => db'
  | .error _ => db

/-- Handler `quotes.Handler.Upsert` (`internal/quotes/handlers.go`), from the point
where ids and payload are resolved: pre-check the case exists and is OPEN,
then re-fetch it under a row lock inside the transaction and re-check, then
either insert a fresh PROPOSED quote for `(caseID, lawyerID)` or update the
existing row in place — only while it is still PROPOSED.  `now` is
`time.Now()`; the note arrives already trimmed by the boundary. -/
def upsert (db : DB) (lawyerID caseID : Nat) (amountCents days : Int)
    (note : String) (now : Nat) : Except Err (DB × Quote) :=
  match findCase db caseID with
  | none => .error .notFound
  | some cs0 =>
    if cs0.status ≠ .open_ then .error (.conflict "case is not open")
    else
      match findCase db caseID with
      | none => .error .notFound
      | some cs =>
        if cs.status ≠ .open_ then .error (.conflict "case is not open")
        else
          match findPairQuote db caseID lawyerID with
          | none =>
            let q : Quote :=
              { id := db.nextID, caseID := caseID, lawyerID := lawyerID
                amountCents := amountCents, days := days, note := note
                status := .proposed, createdAt := now, updatedAt := now }
            .ok ({ db with quotes := db.quotes ++ [q], nextID := db.nextID + 1 }, q)
          | some q =>
            if q.status ≠ .proposed then
              .error (.conflict "quote is immutable (already accepted/rejected)")
            else if q.lawyerID ≠ lawyerID then .error .forbidden
            else
              let q1 : Quote :=
                { q with amountCents := amountCents, days := days
                         note := note, updatedAt := now }
              .ok ({ db with quotes := db.quotes.map (fun r =>
                      if r.id = q.id then
                        { r with amountCents := amountCents, days := days
                                 note := note, updatedAt := now }
                      else r) }, q1)

/-- Handler `payments.Handler.CreateCheckoutMock` (`internal/payments/handlers.go`)
up to the point where the HTTP response is built: load quote and case, check
ownership and that the case is OPEN, then idempotently create-or-reuse the
payment row keyed by the quote, refusing if it is already paid.
`CreateCheckout` (Stripe) runs this exact same guard/lookup/create sequence
before talking to Stripe, and delegates here when the mock provider is
configured. -/
def createCheckoutMock (db : DB) (clientID quoteID : Nat) (now : Nat) :
    Except Err (DB × Payment) :=
  match findQuoteByID db quoteID with
  | none => .error .notFound
  | some q =>
    match findCase db q.caseID with
    | none => .error .internal
    | some cs =>
      if cs.clientID ≠ clientID then .error .forbidden
      else if cs.status ≠ .open_ then .error (.conflict "case is not open")
      else
        match findPaymentByQuote db q.id with
        | none =>
          let pay : Payment :=
            { id := db.nextID, caseID := cs.id, quoteID := q.id
              clientID := cs.clientID, stripePaymentIntent := none
              amountCents := q.amountCents, status := .initiated
              createdAt := now }
          .ok ({ db with payments := db.payments ++ [pay]
                         nextID := db.nextID + 1 }, pay)
        | some pay =>
          if pay.status = .paid then .error (.conflict "quote already paid")
          else .ok (db, pay)

/-- The winner-selection block of the settlement transaction (the body of
`if cs.Status == models.CaseOpen { ... }` shared by `Handler.MockComplete`
and `Handler.StripeWebhook`): accept the quote named by the payment, then
reject every other quote of the case still PROPOSED (two sequential UPDATE
statements, the second evaluated on the table the first left behind), then
set the case to ENGAGED with `engaged_at` / `accepted_quote_id` /
`accepted_lawyer_id`, then best-effort append the audit entry (`auditOk`
models whether the fire-and-forget `utils.LogCaseHistory` insert succeeds;
the Go code ignores its error either way). -/
def engageCase (db : DB) (cs : Case) (q : Quote) (now : Nat) (auditOk : Bool)
    (reason : String) : DB :=
  { db with
    quotes :=
      (db.quotes.map (fun r =>
        if r.id = q.id then { r with status := .accepted } else r)).map
        (fun r =>
          if r.caseID = cs.id ∧ r.id ≠ q.id ∧ r.status = .proposed then
            { r with status := .rejected }
          else r)
    cases := db.cases.map (fun r =>
      if r.id = cs.id then
        { r with status := .engaged, engagedAt := some now
                 acceptedQuoteID := some q.id
                 acceptedLawyerID := some q.lawyerID }
      else r)
    histories :=
      if auditOk then
        db.histories ++
          [{ caseID := cs.id, actorID := cs.clientID, action := "engaged"
             oldStatus := .open_, newStatus := .engaged, reason := reason }]
      else db.histories }

/-- The final UPDATE of the settlement transaction: mark the payment paid,
also persisting the Stripe payment-intent id when the trigger carries one
(the webhook path). -/
def markPaid (db : DB) (pid : Nat) (intent : Option String) : DB :=
  { db with
    payments := db.payments.map (fun p =>
      if p.id = pid then
        match intent with
        | some piID => { p with status := .paid
                                stripePaymentIntent := some piID }
        | none => { p with status := .paid }
      else p) }

/-- The settlement transaction shared verbatim by `Handler.MockComplete` and
the `checkout.session.completed` branch of `Handler.StripeWebhook`
(`internal/payments/handlers.go`): lock the payment, short-circuit if already
paid, lock the case, load the quote, check the recorded amount against the
quote's current amount, and — only if the case is still OPEN — run the
winner-selection block (`engageCase`); finally mark the payment paid
(`markPaid`).  The returned flag is `true` exactly on the idempotent
already-paid short-circuit. -/
def attemptSettlement (db : DB) (pid : Nat) (now : Nat) (auditOk : Bool)
    (intent : Option String) (reason : String) : Except Err (DB × Bool) :=
  match findPayment db pid with
  | none => .error .notFound
  | some pay =>
    if pay.status = .paid then .ok (db, true)
    else
      match findCase db pay.caseID with
      | none => .error .internal
      | some cs =>
        match findQuoteByID db pay.quoteID with
        | none => .error .internal
        | some q =>
          if pay.amountCents ≠ q.amountCents then
            .error (.conflict "amount mismatch")
          else
            .ok (markPaid
              (if cs.status = .open_ then engageCase db cs q now auditOk reason
               else db) pid intent, false)

/-- Handler `Handler.MockComplete` after dev-secret checks and body parsing: the
settlement transaction with no provider correlation id and the mock audit
reason. -/
def mockComplete (db : DB) (pid : Nat) (now : Nat) (auditOk : Bool) :
    Except Err (DB × Bool) :=
  attemptSettlement db pid now auditOk none "payment completed (mock)"

/-- The `checkout.session.completed` branch of `Handler.StripeWebhook` after
signature verification and payment-id resolution: the settlement transaction
with the session's payment-intent id (when present) and the stripe audit
reason (optionally carrying the receipt number fetched before the
transaction). -/
def stripeWebhookCompleted (db : DB) (pid : Nat) (now : Nat) (auditOk : Bool)
    (paymentIntent : Option String) (receiptNumber : String) :
    Except Err (DB × Bool) :=
  attemptSettlement db pid now auditOk paymentIntent
    (if receiptNumber = "" then "payment completed (stripe)"
     else "payment completed (stripe: " ++ receiptNumber ++ ")")

/-- Handler `cases.Handler.Cancel` (`internal/cases/handlers.go`): the owner cancels
their own case, allowed only from OPEN; best-effort audit entry afterwards. -/
def cancelCase (db : DB) (clientID : Nat) (cid : Nat) (comment : String)
    (auditOk : Bool) : Except Err DB :=
  match findCase db cid with
  | none => .error .notFound
  | some cs =>
    if cs.clientID ≠ clientID then .error .forbidden
    else if cs.status ≠ .open_ then .error (.conflict "case cannot be cancelled")
    else
      let cases1 := db.cases.map (fun r =>
        if r.id = cs.id then { r with status := .cancelled } else r)
      let hist1 :=
        if auditOk then
          db.histories ++
            [{ caseID := cs.id, actorID := clientID, action := "cancelled"
               oldStatus := cs.status, newStatus := .cancelled
               reason := comment }]
        else db.histories
      .ok { db with cases := cases1, histories := hist1 }

/-- Handler `cases.Handler.Close`: the owner closes their own case, allowed only from
ENGAGED; best-effort audit entry afterwards. -/
def closeCase (db : DB) (clientID : Nat) (cid : Nat) (comment : String)
    (auditOk : Bool) : Except Err DB :=
  match findCase db cid with
  | none => .error .notFound
  | some cs =>
    if cs.clientID ≠ clientID then .error .forbidden
    else if cs.status ≠ .engaged then
      .error (.conflict "only engaged cases can be closed")
    else
      let cases1 := db.cases.map (fun r =>
        if r.id = cs.id then { r with status := .closed } else r)
      let hist1 :=
        if auditOk then
          db.histories ++
            [{ caseID := cs.id, actorID := clientID, action := "closed"
               oldStatus := cs.status, newStatus := .closed
               reason := comment }]
        else db.histories
      .ok { db with cases := cases1, histories := hist1 }

/-! ## General helper lemmas about the list-table encoding -/

/-- An in-place UPDATE (a `List.map` whose function preserves the lookup key)
commutes with a keyed lookup: the found row is the updated version of the row
found before. -/
theorem find?_map_pred {α : Type} (l : List α) (p : α → Bool) (f : α → α) (a : α)
    (hpf : ∀ x, p (f x) = p x) (h : l.find? p = some a) :
    (l.map f).find? p = some (f a) := by
  rw [List.find?_map, show (p ∘ f) = p from funext hpf, h]
  rfl

/-- An in-place UPDATE whose function preserves the filter key commutes with
filtering by that key. -/
theorem filter_map_pred {α : Type} (l : List α) (p : α → Bool) (f : α → α)
    (hpf : ∀ x, p (f x) = p x) :
    (l.map f).filter p = (l.filter p).map f := by
  rw [List.filter_map, show (p ∘ f) = p from funext hpf]

/-- Injectivity of a successful `Except` result carrying a pair. -/
theorem ok_pair_inj {α β : Type} {a a' : α} {b b' : β}
    (h : (Except.ok (a, b) : Except Err (α × β)) = .ok (a', b')) :
    a' = a ∧ b' = b := by
  injection h with h1
  exact ⟨(congrArg Prod.fst h1).symm, (congrArg Prod.snd h1).symm⟩

/-- After `markPaid`, the payment row now holds status `paid`. -/
theorem findPayment_markPaid_paid (db : DB) (pid : Nat) (intent : Option String)
    (pay : Payment) (h : findPayment db pid = some pay) :
    ∃ pay', findPayment (markPaid db pid intent) pid = some pay' ∧
      pay'.status = .paid := by
  have hid : pay.id = pid := by simpa using List.find?_some h
  unfold findPayment markPaid
  rw [List.find?_map]
  have hpf : ((fun p : Payment => p.id == pid) ∘ (fun p : Payment =>
      if p.id = pid then
        match intent with
        | some piID => { p with status := .paid, stripePaymentIntent := some piID }
        | none => { p with status := .paid }
      else p)) = (fun p : Payment => p.id == pid) := by
    funext x
    by_cases hx : x.id = pid
    · cases intent <;> simp [hx]
    · simp [hx]
  rw [hpf]
  unfold findPayment at h
  rw [h]
  refine ⟨_, rfl, ?_⟩
  cases intent <;> simp [hid]

/-- Every successful run of the settlement transaction leaves the named
payment row with status `paid`. -/
theorem attemptSettlement_ok_paid (db : DB) (pid now : Nat) (auditOk : Bool)
    (intent : Option String) (reason : String) (db' : DB) (b : Bool)
    (h : attemptSettlement db pid now auditOk intent reason = .ok (db', b)) :
    ∃ pay', findPayment db' pid = some pay' ∧ pay'.status = .paid := by
  unfold attemptSettlement at h
  split at h
  · cases h
  next pay hpay =>
    split at h
    next hp =>
      obtain ⟨hdb, -⟩ := ok_pair_inj h
      subst hdb
      exact ⟨pay, hpay, hp⟩
    next hp =>
      split at h
      · cases h
      next cs hcs =>
        split at h
        · cases h
        next q hq =>
          split at h
          next hamt => cases h
          next hamt =>
            obtain ⟨hdb, -⟩ := ok_pair_inj h
            subst hdb
            have hpm : (if cs.status = .open_ then
                engageCase db cs q now auditOk reason else db).payments
                = db.payments := by
              by_cases ho : cs.status = .open_
              · rw [if_pos ho]; rfl
              · rw [if_neg ho]
            have hfind : findPayment (if cs.status = .open_ then
                engageCase db cs q now auditOk reason else db) pid = some pay := by
              unfold findPayment at hpay ⊢
              rw [hpm]
              exact hpay
            exact findPayment_markPaid_paid _ pid intent pay hfind

/-! ## Claim theorems -/

/-- C2: a settlement call whose payment record is already SETTLED returns
success immediately with the `alreadySettled` flag and the whole store
(payments, cases, quotes, histories) unchanged; consequently, re-running
`attemptSettlement` after any successful run returns success and mutates
nothing. -/
theorem attemptSettlement_idempotent_after_settled (db : DB) (pid now now2 : Nat)
    (a a2 : Bool) (i i2 : Option String) (r r2 : String) :
    (∀ pay, findPayment db pid = some pay → pay.status = .paid →
      attemptSettlement db pid now a i r = .ok (db, true)) ∧
    (∀ db' b, attemptSettlement db pid now a i r = .ok (db', b) →
      attemptSettlement db' pid now2 a2 i2 r2 = .ok (db', true)) := by
  constructor
  · intro pay hpay hpaid
    unfold attemptSettlement
    rw [hpay]
    simp [hpaid]
  · intro db' b h
    obtain ⟨pay', hfind, hpaid⟩ := attemptSettlement_ok_paid db pid now a i r db' b h
    unfold attemptSettlement
    rw [hfind]
    simp [hpaid]

/-- C3: a settlement call on a not-yet-settled payment whose recorded amount
differs from the quote's current amount fails with Conflict
("amount mismatch") and leaves the store exactly as it was. -/
theorem attemptSettlement_amount_mismatch_aborts (db : DB) (pid now : Nat)
    (auditOk : Bool) (intent : Option String) (reason : String)
    (pay : Payment) (cs : Case) (q : Quote)
    (hpay : findPayment db pid = some pay) (hnot : pay.status ≠ .paid)
    (hcs : findCase db pay.caseID = some cs)
    (hq : findQuoteByID db pay.quoteID = some q)
    (hamt : pay.amountCents ≠ q.amountCents) :
    attemptSettlement db pid now auditOk intent reason =
      .error (.conflict "amount mismatch") ∧
    dbAfter db (attemptSettlement db pid now auditOk intent reason) = db := by
  have h : attemptSettlement db pid now auditOk intent reason =
      .error (.conflict "amount mismatch") := by
    unfold attemptSettlement
    rw [hpay]
    simp only [if_neg hnot]
    rw [hcs]
    simp only []
    rw [hq]
    simp [hamt]
  refine ⟨h, ?_⟩
  rw [h]
  rfl

/-- Technical lemma: a not-yet-settled payment with a matching amount drives
the settlement transaction to its commit point, whose result state is
`markPaid` applied after the winner-selection block (run only if the case is
still OPEN). -/
theorem attemptSettlement_run (db : DB) (pid now : Nat) (auditOk : Bool)
    (intent : Option String) (reason : String)
    (pay : Payment) (cs : Case) (q : Quote)
    (hpay : findPayment db pid = some pay) (hnot : pay.status ≠ .paid)
    (hcs : findCase db pay.caseID = some cs)
    (hq : findQuoteByID db pay.quoteID = some q)
    (hamt : pay.amountCents = q.amountCents) :
    attemptSettlement db pid now auditOk intent reason =
      .ok (markPaid
        (if cs.status = .open_ then engageCase db cs q now auditOk reason
         else db) pid intent, false) := by
  unfold attemptSettlement
  rw [hpay]
  simp only [if_neg hnot]
  rw [hcs]
  simp only []
  rw [hq]
  simp [hamt]

/-- C1: a settlement call on a not-yet-settled payment with matching amount
succeeds; if the case is OPEN it marks the named quote ACCEPTED, marks every
other still-PROPOSED quote of that case REJECTED (quotes already
ACCEPTED/REJECTED are untouched, as are quotes of other cases), and sets the
case to ENGAGED with `accepted_quote_id`, `accepted_lawyer_id` and
`engaged_at` populated; if the case is not OPEN it leaves every case and
every quote unchanged and still succeeds. -/
theorem attemptSettlement_openCase_selects_single_winner
    (db : DB) (pid now : Nat) (auditOk : Bool) (intent : Option String)
    (reason : String) (pay : Payment) (cs : Case) (q : Quote)
    (hpay : findPayment db pid = some pay) (hnot : pay.status ≠ .paid)
    (hcs : findCase db pay.caseID = some cs)
    (hq : findQuoteByID db pay.quoteID = some q)
    (hamt : pay.amountCents = q.amountCents) :
    ∃ db', attemptSettlement db pid now auditOk intent reason = .ok (db', false) ∧
      (cs.status = .open_ →
        db'.quotes = db.quotes.map (fun r =>
          if r.id = q.id then { r with status := .accepted }
          else if r.caseID = cs.id ∧ r.status = .proposed then
            { r with status := .rejected }
          else r) ∧
        db'.cases = db.cases.map (fun r =>
          if r.id = cs.id then
            { r with status := .engaged, engagedAt := some now
                     acceptedQuoteID := some q.id
                     acceptedLawyerID := some q.lawyerID }
          else r)) ∧
      (cs.status ≠ .open_ → db'.cases = db.cases ∧ db'.quotes = db.quotes) := by
  refine ⟨_, attemptSettlement_run db pid now auditOk intent reason pay cs q
    hpay hnot hcs hq hamt, ?_, ?_⟩
  · intro hopen
    rw [if_pos hopen]
    constructor
    · show (engageCase db cs q now auditOk reason).quotes = _
      unfold engageCase
      dsimp only
      rw [List.map_map]
      congr 1
      funext r
      by_cases h1 : r.id = q.id
      · simp [Function.comp, h1]
      · by_cases h2 : r.caseID = cs.id ∧ r.status = .proposed
        · simp [Function.comp, h1, h2]
        · simp only [Function.comp, if_neg h1]
          simp [h1, h2]
    · rfl
  · intro hne
    rw [if_neg hne]
    exact ⟨rfl, rfl⟩

/-- C9: when settlement actually performs the OPEN→ENGAGED transition, the
audit entry for it is appended exactly if the audit sink accepts the write
(and no entry is attempted otherwise); whether the audit write succeeds or
fails, the call succeeds and the case/quote/payment mutations are
identical. -/
theorem attemptSettlement_audit_best_effort (db : DB) (pid now : Nat)
    (intent : Option String) (reason : String)
    (pay : Payment) (cs : Case) (q : Quote)
    (hpay : findPayment db pid = some pay) (hnot : pay.status ≠ .paid)
    (hcs : findCase db pay.caseID = some cs)
    (hq : findQuoteByID db pay.quoteID = some q)
    (hamt : pay.amountCents = q.amountCents) :
    ∃ dbT dbF,
      attemptSettlement db pid now true intent reason = .ok (dbT, false) ∧
      attemptSettlement db pid now false intent reason = .ok (dbF, false) ∧
      dbF.histories = db.histories ∧
      (cs.status = .open_ →
        dbT.histories = db.histories ++
          [{ caseID := cs.id, actorID := cs.clientID, action := "engaged"
             oldStatus := .open_, newStatus := .engaged, reason := reason }]) ∧
      (cs.status ≠ .open_ → dbT.histories = db.histories) ∧
      dbT.cases = dbF.cases ∧ dbT.quotes = dbF.quotes ∧
      dbT.payments = dbF.payments := by
  refine ⟨_, _, attemptSettlement_run db pid now true intent reason pay cs q
      hpay hnot hcs hq hamt,
    attemptSettlement_run db pid now false intent reason pay cs q
      hpay hnot hcs hq hamt, ?_, ?_, ?_, ?_, ?_, ?_⟩
  · by_cases ho : cs.status = .open_
    · rw [if_pos ho]
      simp [markPaid, engageCase]
    · rw [if_neg ho]
      rfl
  · intro hopen
    rw [if_pos hopen]
    simp [markPaid, engageCase]
  · intro hne
    rw [if_neg hne]
    rfl
  · by_cases ho : cs.status = .open_
    · rw [if_pos ho, if_pos ho]
      rfl
    · rw [if_neg ho, if_neg ho]
  · by_cases ho : cs.status = .open_
    · rw [if_pos ho, if_pos ho]
      rfl
    · rw [if_neg ho, if_neg ho]
  · by_cases ho : cs.status = .open_
    · rw [if_pos ho, if_pos ho]
      simp [markPaid, engageCase]
    · rw [if_neg ho, if_neg ho]

/-- C5: offer submission on a missing resource fails with NotFound; on an
existing resource whose status is not OPEN it fails with Conflict; every
error outcome leaves the store untouched (so no offer is created or
modified), regardless of whether the bidder already has an offer there. -/
theorem upsert_missing_or_not_open_fails (db : DB) (lawyerID caseID : Nat)
    (amountCents days : Int) (note : String) (now : Nat) :
    (findCase db caseID = none →
      upsert db lawyerID caseID amountCents days note now = .error .notFound) ∧
    (∀ cs, findCase db caseID = some cs → cs.status ≠ .open_ →
      upsert db lawyerID caseID amountCents days note now =
        .error (.conflict "case is not open")) ∧
    (∀ e, upsert db lawyerID caseID amountCents days note now = .error e →
      dbAfter db (upsert db lawyerID caseID amountCents days note now) = db) := by
  refine ⟨?_, ?_, ?_⟩
  · intro h
    unfold upsert
    rw [h]
  · intro cs h hne
    unfold upsert
    rw [h]
    simp [hne]
  · intro e h
    rw [h]
    rfl

/-- C6: when the bidder's existing offer on an open resource is terminal
(ACCEPTED or REJECTED), offer submission fails with Conflict ("immutable")
and the store — in particular that offer — is unchanged. -/
theorem upsert_terminal_quote_immutable (db : DB) (lawyerID caseID : Nat)
    (amountCents days : Int) (note : String) (now : Nat) (cs : Case) (q : Quote)
    (hcs : findCase db caseID = some cs) (hopen : cs.status = .open_)
    (hq : findPairQuote db caseID lawyerID = some q)
    (hterm : q.status = .accepted ∨ q.status = .rejected) :
    upsert db lawyerID caseID amountCents days note now =
      .error (.conflict "quote is immutable (already accepted/rejected)") ∧
    dbAfter db (upsert db lawyerID caseID amountCents days note now) = db := by
  have hne : q.status ≠ .proposed := by
    rcases hterm with h | h <;> simp [h]
  have h : upsert db lawyerID caseID amountCents days note now =
      .error (.conflict "quote is immutable (already accepted/rejected)") := by
    unfold upsert
    rw [hcs]
    simp only [hopen, ne_eq, not_true_eq_false, if_false, reduceIte]
    rw [hq]
    simp [hne]
  refine ⟨h, ?_⟩
  rw [h]
  rfl

/-- The unique index `idx_case_lawyer` on `quotes (case_id, lawyer_id)`
(`pkg/models/models.go`): no two stored quote rows share a (resource, bidder)
pair. -/
def PairUnique (db : DB) : Prop :=
  db.quotes.Pairwise (fun a b => ¬(a.caseID = b.caseID ∧ a.lawyerID = b.lawyerID))

/-- Under the unique pair index, the row found by a (resource, bidder) lookup
is the only row the pair filter returns. -/
theorem pair_filter_eq_singleton (l : List Quote) (c lw : Nat) (q : Quote)
    (hu : l.Pairwise (fun a b => ¬(a.caseID = b.caseID ∧ a.lawyerID = b.lawyerID)))
    (h : l.find? (fun r => r.caseID == c && r.lawyerID == lw) = some q) :
    l.filter (fun r => r.caseID == c && r.lawyerID == lw) = [q] := by
  induction l with
  | nil => cases h
  | cons x xs ih =>
    rw [List.pairwise_cons] at hu
    by_cases hx : (x.caseID == c && x.lawyerID == lw) = true
    · have hfind := List.find?_cons_of_pos (p := fun r : Quote =>
        r.caseID == c && r.lawyerID == lw) xs hx
      rw [hfind] at h
      injection h with h
      subst h
      have hfc : List.filter (fun r : Quote =>
          r.caseID == c && r.lawyerID == lw) (x :: xs) =
          x :: List.filter (fun r => r.caseID == c && r.lawyerID == lw) xs := by
        simp [List.filter_cons, hx]
      rw [hfc]
      have hnil : xs.filter (fun r => r.caseID == c && r.lawyerID == lw) = [] := by
        rw [List.filter_eq_nil_iff]
        intro a ha hpa
        simp only [Bool.and_eq_true, beq_iff_eq] at hx hpa
        exact hu.1 a ha ⟨by rw [hx.1, hpa.1], by rw [hx.2, hpa.2]⟩
      rw [hnil]
    · have hfind := List.find?_cons_of_neg (p := fun r : Quote =>
        r.caseID == c && r.lawyerID == lw) xs hx
      rw [hfind] at h
      have hfc : List.filter (fun r : Quote =>
          r.caseID == c && r.lawyerID == lw) (x :: xs) =
          List.filter (fun r => r.caseID == c && r.lawyerID == lw) xs := by
        simp [List.filter_cons, hx]
      rw [hfc]
      exact ih hu.2 h

/-- Technical lemma: an offer submission that finds an OPEN case and an
existing PROPOSED quote of the calling bidder updates that row in place, and
under the pair-singleton premise the pair filter afterwards returns exactly
the updated row. -/
theorem upsert_update_mode (db : DB) (lawyerID caseID : Nat) (a d : Int)
    (n : String) (t : Nat) (cs : Case) (qm : Quote)
    (hcs : findCase db caseID = some cs) (hopen : cs.status = .open_)
    (hfq : findPairQuote db caseID lawyerID = some qm)
    (hst : qm.status = .proposed) (hlw : qm.lawyerID = lawyerID)
    (hpair : pairQuotes db caseID lawyerID = [qm]) :
    upsert db lawyerID caseID a d n t =
      .ok ({ db with quotes := db.quotes.map (fun r =>
              if r.id = qm.id then
                { r with amountCents := a, days := d, note := n, updatedAt := t }
              else r) },
           { qm with amountCents := a, days := d, note := n, updatedAt := t }) ∧
    pairQuotes { db with quotes := db.quotes.map (fun r =>
        if r.id = qm.id then
          { r with amountCents := a, days := d, note := n, updatedAt := t }
        else r) } caseID lawyerID =
      [{ qm with amountCents := a, days := d, note := n, updatedAt := t }] := by
  constructor
  · unfold upsert
    rw [hcs]
    simp only [hopen, ne_eq, not_true_eq_false, if_false, reduceIte]
    rw [hfq]
    simp [hst, hlw]
  · unfold pairQuotes
    dsimp only
    rw [filter_map_pred _ _ _
      (fun x => by by_cases hx : x.id = qm.id <;> simp [hx])]
    unfold pairQuotes at hpair
    rw [hpair]
    have hid : qm.id = qm.id := rfl
    simp

/-- Technical lemma: whatever a successful offer submission did (insert or
in-place update), the mid store it leaves still has the case OPEN, and has a
PROPOSED quote of the calling bidder as the one and only row of the
(resource, bidder) pair. -/
theorem upsert_ok_mid_state (db : DB) (lawyerID caseID : Nat) (a1 d1 : Int)
    (n1 : String) (t1 : Nat) (db1 : DB) (q1 : Quote)
    (hu : PairUnique db)
    (h1 : upsert db lawyerID caseID a1 d1 n1 t1 = .ok (db1, q1)) :
    ∃ cs0 qm, findCase db1 caseID = some cs0 ∧ cs0.status = .open_ ∧
      findPairQuote db1 caseID lawyerID = some qm ∧ qm.status = .proposed ∧
      qm.lawyerID = lawyerID ∧ pairQuotes db1 caseID lawyerID = [qm] := by
  unfold upsert at h1
  split at h1
  · cases h1
  next cs0 hcs0 =>
    split at h1
    · cases h1
    next hopen0 =>
      have hopen : cs0.status = .open_ := not_not.mp hopen0
      simp only [hopen, ne_eq, not_true_eq_false, if_false, reduceIte] at h1
      split at h1
      next hfq =>
        obtain ⟨hdb1, -⟩ := ok_pair_inj h1
        subst hdb1
        refine ⟨cs0,
          { id := db.nextID, caseID := caseID, lawyerID := lawyerID
            amountCents := a1, days := d1, note := n1
            status := .proposed, createdAt := t1, updatedAt := t1 },
          hcs0, hopen, ?_, rfl, rfl, ?_⟩
        · unfold findPairQuote at hfq ⊢
          dsimp only
          rw [List.find?_append, hfq]
          simp
        · unfold pairQuotes
          dsimp only
          rw [List.filter_append]
          have hfnil : db.quotes.filter
              (fun r => r.caseID == caseID && r.lawyerID == lawyerID) = [] := by
            rw [List.filter_eq_nil_iff]
            intro x hx hpx
            unfold findPairQuote at hfq
            rw [List.find?_eq_none] at hfq
            exact hfq x hx hpx
          rw [hfnil]
          simp
      next qf hfq =>
        split at h1
        next hqs => cases h1
        next hqs =>
          split at h1
          next hql => cases h1
          next hql =>
            have hqprop : qf.status = .proposed := not_not.mp hqs
            have hqlw : qf.lawyerID = lawyerID := not_not.mp hql
            obtain ⟨hdb1, -⟩ := ok_pair_inj h1
            subst hdb1
            have hpf : ∀ x : Quote,
                ((fun r : Quote => r.caseID == caseID && r.lawyerID == lawyerID)
                  ((fun r : Quote => if r.id = qf.id then
                      { r with amountCents := a1, days := d1
                               note := n1, updatedAt := t1 }
                    else r) x)) =
                ((fun r : Quote => r.caseID == caseID && r.lawyerID == lawyerID) x) := by
              intro x
              by_cases hx : x.id = qf.id <;> simp [hx]
            refine ⟨cs0,
              { id := qf.id, caseID := qf.caseID, lawyerID := qf.lawyerID
                amountCents := a1, days := d1, note := n1
                status := qf.status, createdAt := qf.createdAt, updatedAt := t1 },
              hcs0, hopen, ?_, hqprop, hqlw, ?_⟩
            · unfold findPairQuote at hfq ⊢
              dsimp only
              have := find?_map_pred db.quotes
                (fun r => r.caseID == caseID && r.lawyerID == lawyerID)
                (fun r => if r.id = qf.id then
                    { r with amountCents := a1, days := d1
                             note := n1, updatedAt := t1 }
                  else r) qf hpf hfq
              rw [this]
              simp
            · unfold pairQuotes
              dsimp only
              rw [filter_map_pred _ _ _ hpf]
              have hsing := pair_filter_eq_singleton db.quotes caseID lawyerID qf hu hfq
              rw [hsing]
              simp

/-- C4: starting from a store satisfying the unique (case, lawyer) quote
index, a successful offer submission followed by a second submission from
the same bidder on the same resource succeeds and leaves exactly one stored
quote row for that (resource, bidder) pair, carrying the second call\x27s
amount, term and note, with status PROPOSED — and the second call updated in
place: the total number of quote rows did not change. -/
theorem upsert_twice_one_row_latest_values (db : DB) (lawyerID caseID : Nat)
    (a1 d1 a2 d2 : Int) (n1 n2 : String) (t1 t2 : Nat) (db1 : DB) (q1 : Quote)
    (hu : PairUnique db)
    (h1 : upsert db lawyerID caseID a1 d1 n1 t1 = .ok (db1, q1)) :
    ∃ db2 q2, upsert db1 lawyerID caseID a2 d2 n2 t2 = .ok (db2, q2) ∧
      pairQuotes db2 caseID lawyerID = [q2] ∧
      q2.amountCents = a2 ∧ q2.days = d2 ∧ q2.note = n2 ∧
      q2.status = .proposed ∧
      db2.quotes.length = db1.quotes.length := by
  obtain ⟨cs0, qm, hcs1, hopen1, hfq1, hst1, hlw1, hpair1⟩ :=
    upsert_ok_mid_state db lawyerID caseID a1 d1 n1 t1 db1 q1 hu h1
  obtain ⟨hrun, hpair2⟩ := upsert_update_mode db1 lawyerID caseID a2 d2 n2 t2
    cs0 qm hcs1 hopen1 hfq1 hst1 hlw1 hpair1
  refine ⟨_, _, hrun, hpair2, rfl, rfl, rfl, hst1, ?_⟩
  exact List.length_map _ _

/-- C8: on an OPEN resource owned by the caller, the first checkout
(settlement start) for a quote creates exactly one payment record with
status INITIATED whose amount equals the quote's current amount; repeating
the call while that record is still INITIATED returns the very same record
and leaves the store unchanged (no second payment row for the quote). -/
theorem createCheckoutMock_idempotent_initiated (db : DB)
    (clientID quoteID now now2 : Nat) (q : Quote) (cs : Case)
    (hq : findQuoteByID db quoteID = some q)
    (hcs : findCase db q.caseID = some cs)
    (howner : cs.clientID = clientID) (hopen : cs.status = .open_)
    (hnone : findPaymentByQuote db q.id = none) :
    ∃ db1 pay, createCheckoutMock db clientID quoteID now = .ok (db1, pay) ∧
      pay.status = .initiated ∧ pay.amountCents = q.amountCents ∧
      db1.payments = db.payments ++ [pay] ∧
      createCheckoutMock db1 clientID quoteID now2 = .ok (db1, pay) := by
  refine ⟨{ db with
      payments := db.payments ++
        [{ id := db.nextID, caseID := cs.id, quoteID := q.id
           clientID := cs.clientID, stripePaymentIntent := none
           amountCents := q.amountCents, status := .initiated
           createdAt := now }]
      nextID := db.nextID + 1 },
    { id := db.nextID, caseID := cs.id, quoteID := q.id
      clientID := cs.clientID, stripePaymentIntent := none
      amountCents := q.amountCents, status := .initiated, createdAt := now },
    ?_, rfl, rfl, rfl, ?_⟩
  · unfold createCheckoutMock
    rw [hq]
    simp only []
    rw [hcs]
    simp only [howner, ne_eq, not_true_eq_false, if_false, reduceIte,
      hopen, not_true_eq_false]
    rw [hnone]
  · have hqr := hq
    have hcsr := hcs
    have hnoner := hnone
    unfold findQuoteByID at hqr
    unfold findCase at hcsr
    unfold findPaymentByQuote at hnoner
    unfold createCheckoutMock findQuoteByID findCase findPaymentByQuote
    dsimp only
    rw [hqr]
    simp only []
    rw [hcsr]
    simp only [howner, ne_eq, not_true_eq_false, if_false, reduceIte,
      hopen, not_true_eq_false]
    rw [List.find?_append, hnoner]
    simp

/-- C10: a checkout (settlement start) for a quote whose payment record is
already SETTLED fails with Conflict rather than returning or creating a
record, leaves the store unchanged, and — on the path where the open-case
guard is passed — carries exactly the "quote already paid" message. -/
theorem createCheckoutMock_already_paid_conflict (db : DB)
    (clientID quoteID now : Nat) (q : Quote) (cs : Case) (pay : Payment)
    (hq : findQuoteByID db quoteID = some q)
    (hcs : findCase db q.caseID = some cs)
    (howner : cs.clientID = clientID)
    (hpay : findPaymentByQuote db q.id = some pay)
    (hpaid : pay.status = .paid) :
    (∃ msg, createCheckoutMock db clientID quoteID now =
      .error (.conflict msg)) ∧
    dbAfter db (createCheckoutMock db clientID quoteID now) = db ∧
    (cs.status = .open_ →
      createCheckoutMock db clientID quoteID now =
        .error (.conflict "quote already paid")) := by
  by_cases ho : cs.status = .open_
  · have h : createCheckoutMock db clientID quoteID now =
        .error (.conflict "quote already paid") := by
      unfold createCheckoutMock
      rw [hq]
      simp only []
      rw [hcs]
      simp only [howner, ne_eq, not_true_eq_false, if_false, reduceIte,
        ho, not_true_eq_false]
      rw [hpay]
      simp [hpaid]
    exact ⟨⟨_, h⟩, by rw [h]; rfl, fun _ => h⟩
  · have h : createCheckoutMock db clientID quoteID now =
        .error (.conflict "case is not open") := by
      unfold createCheckoutMock
      rw [hq]
      simp only []
      rw [hcs]
      simp only [howner, ne_eq, not_true_eq_false, if_false, reduceIte]
      simp [ho]
    exact ⟨⟨_, h⟩, by rw [h]; rfl, fun hx => absurd hx ho⟩

/-! ## Reachability and the accepted-offer invariant (C7) -/

/-- Primary-key uniqueness of the `cases` table: no two stored case rows
share an id. -/
def CaseIDsUnique (db : DB) : Prop :=
  db.cases.Pairwise (fun a b => a.id ≠ b.id)

/-- The spec invariant: a case's `accepted_quote_id` is populated exactly
when its status is ENGAGED or CLOSED. -/
def AcceptedInv (db : DB) : Prop :=
  ∀ cs ∈ db.cases, cs.acceptedQuoteID.isSome = true ↔
    (cs.status = .engaged ∨ cs.status = .closed)

/-- Every case of the store is freshly created: OPEN, with no accepted
quote recorded yet. -/
def FreshCases (db : DB) : Prop :=
  ∀ cs ∈ db.cases, cs.status = .open_ ∧ cs.acceptedQuoteID = none

/-- One step of the core: any of the five operations of the settlement core
(offer submission, settlement start, settlement completion — either trigger —
owner cancel, owner close), run with any arguments, succeeding. -/
inductive Step : DB → DB → Prop where
  | upsertStep (db : DB) (lawyerID caseID : Nat) (a d : Int) (n : String)
      (t : Nat) (db' : DB) (q : Quote)
      (h : upsert db lawyerID caseID a d n t = .ok (db', q)) : Step db db'
  | checkoutStep (db : DB) (clientID quoteID t : Nat) (db' : DB) (pay : Payment)
      (h : createCheckoutMock db clientID quoteID t = .ok (db', pay)) :
      Step db db'
  | settleStep (db : DB) (pid t : Nat) (a : Bool) (i : Option String)
      (r : String) (db' : DB) (b : Bool)
      (h : attemptSettlement db pid t a i r = .ok (db', b)) : Step db db'
  | cancelStep (db : DB) (clientID cid : Nat) (c : String) (a : Bool) (db' : DB)
      (h : cancelCase db clientID cid c a = .ok db') : Step db db'
  | closeStep (db : DB) (clientID cid : Nat) (c : String) (a : Bool) (db' : DB)
      (h : closeCase db clientID cid c a = .ok db') : Step db db'

/-- Any finite sequence of core operations. -/
def Reachable : DB → DB → Prop :=
  Relation.ReflTransGen Step

/-- A successful offer submission never touches the cases table. -/
theorem upsert_cases_eq (db : DB) (lawyerID caseID : Nat) (a d : Int)
    (n : String) (t : Nat) (db' : DB) (q' : Quote)
    (h : upsert db lawyerID caseID a d n t = .ok (db', q')) :
    db'.cases = db.cases := by
  unfold upsert at h
  repeat' split at h
  any_goals cases h
  all_goals exact rfl

/-- A successful checkout never touches the cases table. -/
theorem createCheckoutMock_cases_eq (db : DB) (clientID quoteID t : Nat)
    (db' : DB) (pay : Payment)
    (h : createCheckoutMock db clientID quoteID t = .ok (db', pay)) :
    db'.cases = db.cases := by
  unfold createCheckoutMock at h
  repeat' split at h
  any_goals cases h
  all_goals exact rfl

/-- A successful settlement preserves case-id uniqueness and the
accepted-offer invariant. -/
theorem attemptSettlement_preserves_inv (db : DB) (pid t : Nat) (a : Bool)
    (i : Option String) (r : String) (db' : DB) (b : Bool)
    (h : attemptSettlement db pid t a i r = .ok (db', b))
    (hids : CaseIDsUnique db) (hinv : AcceptedInv db) :
    CaseIDsUnique db' ∧ AcceptedInv db' := by
  unfold attemptSettlement at h
  split at h
  · cases h
  next pay hpay =>
    split at h
    next hp =>
      obtain ⟨hdb, -⟩ := ok_pair_inj h
      subst hdb
      exact ⟨hids, hinv⟩
    next hp =>
      split at h
      · cases h
      next cs hcs =>
        split at h
        · cases h
        next q hq =>
          split at h
          next hamt => cases h
          next hamt =>
            obtain ⟨hdb, -⟩ := ok_pair_inj h
            subst hdb
            by_cases ho : cs.status = .open_
            · rw [if_pos ho]
              have hfid : ∀ x : Case, (if x.id = cs.id then
                  { x with status := CaseStatus.engaged, engagedAt := some t
                           acceptedQuoteID := some q.id
                           acceptedLawyerID := some q.lawyerID }
                else x).id = x.id := by
                intro x
                by_cases hx : x.id = cs.id <;> simp [hx]
              constructor
              · unfold CaseIDsUnique markPaid engageCase
                dsimp only
                rw [List.pairwise_map]
                exact hids.imp (fun hab => by rw [hfid, hfid]; exact hab)
              · unfold AcceptedInv markPaid engageCase
                dsimp only
                intro cs' hmem
                rw [List.mem_map] at hmem
                obtain ⟨x, hx, rfl⟩ := hmem
                by_cases hxid : x.id = cs.id
                · simp [hxid]
                · simp only [hxid, if_false, reduceIte]
                  exact hinv x hx
            · rw [if_neg ho]
              exact ⟨hids, hinv⟩

/-- Two members of an id-unique case table with the same id are the same
row. -/
theorem case_eq_of_mem_id (l : List Case)
    (hu : l.Pairwise (fun a b => a.id ≠ b.id)) (x y : Case)
    (hx : x ∈ l) (hy : y ∈ l) (hid : x.id = y.id) : x = y := by
  by_contra hne
  have hsymm : Symmetric (fun a b : Case => a.id ≠ b.id) :=
    fun _ _ hab => Ne.symm hab
  exact (List.Pairwise.forall hsymm hu hx hy hne) hid

/-- A successful cancel preserves case-id uniqueness and the accepted-offer
invariant. -/
theorem cancelCase_preserves_inv (db : DB) (clientID cid : Nat) (c : String)
    (a : Bool) (db' : DB) (h : cancelCase db clientID cid c a = .ok db')
    (hids : CaseIDsUnique db) (hinv : AcceptedInv db) :
    CaseIDsUnique db' ∧ AcceptedInv db' := by
  unfold cancelCase at h
  split at h
  · cases h
  next cs hcs =>
    split at h
    · cases h
    next hcl =>
      split at h
      · cases h
      next hst =>
        have hopen : cs.status = .open_ := not_not.mp hst
        have hcsmem : cs ∈ db.cases := List.mem_of_find?_eq_some hcs
        injection h with h
        subst h
        have hfid : ∀ x : Case,
            (if x.id = cs.id then { x with status := CaseStatus.cancelled }
             else x).id = x.id := by
          intro x
          by_cases hx : x.id = cs.id <;> simp [hx]
        constructor
        · unfold CaseIDsUnique
          dsimp only
          rw [List.pairwise_map]
          exact hids.imp (fun hab => by rw [hfid, hfid]; exact hab)
        · unfold AcceptedInv
          dsimp only
          intro cs' hmem
          rw [List.mem_map] at hmem
          obtain ⟨x, hx, rfl⟩ := hmem
          by_cases hxid : x.id = cs.id
          · have hxcs : x = cs := case_eq_of_mem_id db.cases hids x cs hx hcsmem hxid
            subst hxcs
            have hnone := hinv x hx
            simp [hopen] at hnone
            simp [hxid, hnone]
          · simp only [hxid, if_false, reduceIte]
            exact hinv x hx

/-- A successful close preserves case-id uniqueness and the accepted-offer
invariant. -/
theorem closeCase_preserves_inv (db : DB) (clientID cid : Nat) (c : String)
    (a : Bool) (db' : DB) (h : closeCase db clientID cid c a = .ok db')
    (hids : CaseIDsUnique db) (hinv : AcceptedInv db) :
    CaseIDsUnique db' ∧ AcceptedInv db' := by
  unfold closeCase at h
  split at h
  · cases h
  next cs hcs =>
    split at h
    · cases h
    next hcl =>
      split at h
      · cases h
      next hst =>
        have heng : cs.status = .engaged := not_not.mp hst
        have hcsmem : cs ∈ db.cases := List.mem_of_find?_eq_some hcs
        injection h with h
        subst h
        have hfid : ∀ x : Case,
            (if x.id = cs.id then { x with status := CaseStatus.closed }
             else x).id = x.id := by
          intro x
          by_cases hx : x.id = cs.id <;> simp [hx]
        constructor
        · unfold CaseIDsUnique
          dsimp only
          rw [List.pairwise_map]
          exact hids.imp (fun hab => by rw [hfid, hfid]; exact hab)
        · unfold AcceptedInv
          dsimp only
          intro cs' hmem
          rw [List.mem_map] at hmem
          obtain ⟨x, hx, rfl⟩ := hmem
          by_cases hxid : x.id = cs.id
          · have hxcs : x = cs := case_eq_of_mem_id db.cases hids x cs hx hcsmem hxid
            subst hxcs
            have hsome := hinv x hx
            simp [heng] at hsome
            simp [hxid, hsome]
          · simp only [hxid, if_false, reduceIte]
            exact hinv x hx

/-- Every step of the core preserves case-id uniqueness together with the
accepted-offer invariant. -/
theorem step_preserves_inv (db db' : DB) (h : Step db db')
    (hids : CaseIDsUnique db) (hinv : AcceptedInv db) :
    CaseIDsUnique db' ∧ AcceptedInv db' := by
  cases h with
  | upsertStep =>
    rename_i lawyerID caseID a d n t q hop
    have hc := upsert_cases_eq db lawyerID caseID a d n t db' q hop
    constructor
    · unfold CaseIDsUnique at hids ⊢
      rw [hc]
      exact hids
    · unfold AcceptedInv at hinv ⊢
      rw [hc]
      exact hinv
  | checkoutStep =>
    rename_i clientID quoteID t pay hop
    have hc := createCheckoutMock_cases_eq db clientID quoteID t db' pay hop
    constructor
    · unfold CaseIDsUnique at hids ⊢
      rw [hc]
      exact hids
    · unfold AcceptedInv at hinv ⊢
      rw [hc]
      exact hinv
  | settleStep =>
    rename_i pid t a i r b hop
    exact attemptSettlement_preserves_inv db pid t a i r db' b hop hids hinv
  | cancelStep =>
    rename_i clientID cid c a hop
    exact cancelCase_preserves_inv db clientID cid c a db' hop hids hinv
  | closeStep =>
    rename_i clientID cid c a hop
    exact closeCase_preserves_inv db clientID cid c a db' hop hids hinv

/-- C7: in every store reachable from a store of freshly created cases
(OPEN, nothing accepted, ids unique as the primary key guarantees) through
any sequence of offer submissions, settlement starts, settlement
completions, cancels and closes, a case's `accepted_quote_id` is populated
exactly when the case status is ENGAGED or CLOSED. -/
theorem reachable_accepted_iff_engaged_or_closed (db db' : DB)
    (hfresh : FreshCases db) (hids : CaseIDsUnique db)
    (hreach : Reachable db db') : AcceptedInv db' := by
  have h0 : CaseIDsUnique db ∧ AcceptedInv db := by
    refine ⟨hids, fun cs hm => ?_⟩
    obtain ⟨h1, h2⟩ := hfresh cs hm
    simp [h1, h2]
  have hr : Relation.ReflTransGen Step db db' := hreach
  clear hreach
  have hmain : CaseIDsUnique db' ∧ AcceptedInv db' := by
    induction hr with
    | refl => exact h0
    | tail hst hstep ih => exact step_preserves_inv _ _ hstep ih.1 ih.2
  exact hmain.2

/-! ## Concrete stores used by the witnesses -/

/-- An open case owned by client 10. -/
def caseA : Case :=
  { id := 1, clientID := 10, status := .open_, engagedAt := none
    acceptedQuoteID := none, acceptedLawyerID := none }

/-- Bidder 20's proposed quote on the case. -/
def quoteA : Quote :=
  { id := 2, caseID := 1, lawyerID := 20, amountCents := 500, days := 5
    note := "", status := .proposed, createdAt := 0, updatedAt := 0 }

/-- Bidder 21's competing proposed quote. -/
def quoteB : Quote :=
  { id := 3, caseID := 1, lawyerID := 21, amountCents := 700, days := 3
    note := "", status := .proposed, createdAt := 0, updatedAt := 0 }

/-- An initiated settlement record for quote 2 with the matching amount. -/
def payA : Payment :=
  { id := 4, caseID := 1, quoteID := 2, clientID := 10
    stripePaymentIntent := none, amountCents := 500, status := .initiated
    createdAt := 0 }

/-- Two-bidder store with one initiated settlement record. -/
def db0 : DB :=
  { cases := [caseA], quotes := [quoteA, quoteB], payments := [payA]
    histories := [], nextID := 5 }

/-- The settlement record after it was settled. -/
def payPaid : Payment := { payA with status := .paid }

/-- Store whose settlement record is already SETTLED. -/
def dbPaid : DB := { db0 with payments := [payPaid] }

/-- A stale settlement record whose amount no longer matches the quote. -/
def payBad : Payment := { payA with amountCents := 999 }

/-- Store with the mismatched settlement record. -/
def dbBad : DB := { db0 with payments := [payBad] }

/-- Bidder 20's quote after a settlement accepted it. -/
def quoteDone : Quote := { quoteA with status := .accepted }

/-- Store where bidder 20's quote is terminal. -/
def dbDone : DB := { db0 with quotes := [quoteDone, quoteB] }

/-- Store with no settlement record yet. -/
def dbNoPay : DB := { db0 with payments := [] }

/-- Bidder 20's quote after a first in-place update (600 cents, 6 days). -/
def quoteA1 : Quote :=
  { id := 2, caseID := 1, lawyerID := 20, amountCents := 600, days := 6
    note := "a", status := .proposed, createdAt := 0, updatedAt := 11 }

/-- The store the first of the two witnessed submissions leaves behind. -/
def db1up : DB := { db0 with quotes := [quoteA1, quoteB] }

/-- A store holding one freshly created case and nothing else. -/
def dbFresh : DB :=
  { cases := [caseA], quotes := [], payments := [], histories := []
    nextID := 2 }

/-! ## Witnesses -/

/-- Witness for C1: settling payA on the open two-bidder store. -/
theorem attemptSettlement_winner_witness :
    ∃ db', attemptSettlement db0 4 7 true none "payment completed (mock)" =
        .ok (db', false) ∧
      (caseA.status = .open_ →
        db'.quotes = db0.quotes.map (fun r =>
          if r.id = quoteA.id then { r with status := .accepted }
          else if r.caseID = caseA.id ∧ r.status = .proposed then
            { r with status := .rejected }
          else r) ∧
        db'.cases = db0.cases.map (fun r =>
          if r.id = caseA.id then
            { r with status := .engaged, engagedAt := some 7
                     acceptedQuoteID := some quoteA.id
                     acceptedLawyerID := some quoteA.lawyerID }
          else r)) ∧
      (caseA.status ≠ .open_ → db'.cases = db0.cases ∧ db'.quotes = db0.quotes) :=
  attemptSettlement_openCase_selects_single_winner db0 4 7 true none
    "payment completed (mock)" payA caseA quoteA rfl (by decide) rfl rfl rfl

/-- Witness for C2: settling an already-settled record is a successful
no-op. -/
theorem attemptSettlement_settled_witness :
    attemptSettlement dbPaid 4 9 true none "x" = .ok (dbPaid, true) :=
  (attemptSettlement_idempotent_after_settled dbPaid 4 9 9 true true
    none none "x" "x").1 payPaid rfl rfl

/-- Witness for C3: a mismatched settlement record aborts with Conflict. -/
theorem attemptSettlement_mismatch_witness :
    attemptSettlement dbBad 4 9 true none "x" =
      .error (.conflict "amount mismatch") ∧
    dbAfter dbBad (attemptSettlement dbBad 4 9 true none "x") = dbBad :=
  attemptSettlement_amount_mismatch_aborts dbBad 4 9 true none "x"
    payBad caseA quoteA rfl (by decide) rfl rfl (by decide)

/-- Witness for C4: two submissions by bidder 20 leave one row with the
second values. -/
theorem upsert_twice_witness :
    ∃ db2 q2, upsert db1up 20 1 700 7 "b" 12 = .ok (db2, q2) ∧
      pairQuotes db2 1 20 = [q2] ∧
      q2.amountCents = 700 ∧ q2.days = 7 ∧ q2.note = "b" ∧
      q2.status = .proposed ∧
      db2.quotes.length = db1up.quotes.length :=
  upsert_twice_one_row_latest_values db0 20 1 600 6 700 7 "a" "b" 11 12
    db1up quoteA1 (by unfold PairUnique db0; decide) rfl

/-- Witness for C5: submitting on a missing case fails NotFound. -/
theorem upsert_notfound_witness :
    upsert db0 20 99 5 5 "x" 0 = .error .notFound :=
  (upsert_missing_or_not_open_fails db0 20 99 5 5 "x" 0).1 rfl

/-- Witness for C6: submitting over an accepted quote fails Conflict. -/
theorem upsert_immutable_witness :
    upsert dbDone 20 1 9 9 "x" 0 =
      .error (.conflict "quote is immutable (already accepted/rejected)") ∧
    dbAfter dbDone (upsert dbDone 20 1 9 9 "x" 0) = dbDone :=
  upsert_terminal_quote_immutable dbDone 20 1 9 9 "x" 0 caseA quoteDone
    rfl rfl rfl (Or.inl rfl)

/-- Witness for C7: the invariant holds at the fresh store itself. -/
theorem reachable_inv_witness : AcceptedInv dbFresh :=
  reachable_accepted_iff_engaged_or_closed dbFresh dbFresh
    (by unfold FreshCases dbFresh; decide)
    (by unfold CaseIDsUnique dbFresh; decide)
    Relation.ReflTransGen.refl

/-- Witness for C8: the first checkout creates the initiated record; the
second returns it unchanged. -/
theorem checkout_idempotent_witness :
    ∃ db1 pay, createCheckoutMock dbNoPay 10 2 3 = .ok (db1, pay) ∧
      pay.status = .initiated ∧ pay.amountCents = quoteA.amountCents ∧
      db1.payments = dbNoPay.payments ++ [pay] ∧
      createCheckoutMock db1 10 2 4 = .ok (db1, pay) :=
  createCheckoutMock_idempotent_initiated dbNoPay 10 2 3 4 quoteA caseA
    rfl rfl rfl rfl rfl

/-- Witness for C9: audit sink accepted vs failed, same settlement result. -/
theorem audit_best_effort_witness :
    ∃ dbT dbF,
      attemptSettlement db0 4 7 true none "r1" = .ok (dbT, false) ∧
      attemptSettlement db0 4 7 false none "r1" = .ok (dbF, false) ∧
      dbF.histories = db0.histories ∧
      (caseA.status = .open_ →
        dbT.histories = db0.histories ++
          [{ caseID := caseA.id, actorID := caseA.clientID, action := "engaged"
             oldStatus := .open_, newStatus := .engaged, reason := "r1" }]) ∧
      (caseA.status ≠ .open_ → dbT.histories = db0.histories) ∧
      dbT.cases = dbF.cases ∧ dbT.quotes = dbF.quotes ∧
      dbT.payments = dbF.payments :=
  attemptSettlement_audit_best_effort db0 4 7 none "r1" payA caseA quoteA
    rfl (by decide) rfl rfl rfl

/-- Witness for C10: checkout on a paid record fails "quote already paid". -/
theorem checkout_already_paid_witness :
    (∃ msg, createCheckoutMock dbPaid 10 2 3 = .error (.conflict msg)) ∧
    dbAfter dbPaid (createCheckoutMock dbPaid 10 2 3) = dbPaid ∧
    (caseA.status = .open_ →
      createCheckoutMock dbPaid 10 2 3 =
        .error (.conflict "quote already paid")) :=
  createCheckoutMock_already_paid_conflict dbPaid 10 2 3 quoteA caseA payPaid
    rfl rfl rfl rfl rfl

end LegalMP
